import Mathlib

/-!
Verification of the configuration-management library
(packages: asset-database, config-service, github-asset-client).

The development shallowly embeds the TypeScript sources:

* the PostgreSQL-backed asset store (asset-database/src/database.ts) as a
  pure transition function on an explicit database state,
* the resolver (config-service/src/service.ts and types.ts) as explicit
  state passing over a world (database contents, remote outcomes),
* the TTL cache wrapper (github-asset-client/src/cache.ts) over a model
  of the external lru-cache library.

Machine timestamps are natural numbers; the SQL transaction in storeAsset
is modelled as a single atomic transition (COMMIT applies every statement,
ROLLBACK leaves the state unchanged, which is exactly the unchanged-state
result of a failed call).
-/

namespace ConfigMgmt

/-! ## JSON.stringify of the stored payload

storeAsset hashes the string JSON.stringify({ content }).  We embed that
serialisation concretely: quote, backslash and control characters are
escaped exactly as JSON.stringify escapes them.
-/

/-- Lower-case hex digit, as produced by JSON.stringify for control chars. -/
def hexDigit (n : Nat) : Char :=
  if n < 10 then Char.ofNat (48 + n) else Char.ofNat (87 + n)

/-- Four-digit lower-case hex rendering used in a JSON \u escape. -/
def hex4 (n : Nat) : String :=
  String.mk [hexDigit (n / 4096 % 16), hexDigit (n / 256 % 16),
             hexDigit (n / 16 % 16), hexDigit (n % 16)]

/-- Escape of one character inside a JSON string literal
(JSON.stringify semantics). -/
def jsonEscapeChar (c : Char) : String :=
  if c = '"' then "\\\""
  else if c = '\\' then "\\\\"
  else if c = '\n' then "\\n"
  else if c = '\r' then "\\r"
  else if c = '\t' then "\\t"
  else if c = Char.ofNat 8 then "\\b"
  else if c = Char.ofNat 12 then "\\f"
  else if c.toNat < 32 then "\\u" ++ hex4 c.toNat
  else String.singleton c

/-- A JSON string literal for s, as JSON.stringify renders it. -/
def jsonQuote (s : String) : String :=
  "\"" ++ String.join (s.data.map jsonEscapeChar) ++ "\""

/-- JSON.stringify({ content }), the exact string hashed by storeAsset
(database.ts line 138). -/
def stringifyData (content : String) : String :=
  "\x7b\"content\":" ++ jsonQuote content ++ "\x7d"

/-- The hash stored in data_hash: calculateHash(JSON.stringify({content})).
calculateHash is the sha256 hex digest (database.ts lines 333-335), an
external pure function; we abstract it as the parameter hash. -/
def dataHashOf (hash : String → String) (content : String) : String :=
  hash (stringifyData content)

/-! ## Database state (asset-database/src/database.ts, schema.js)

One row of public.asset.  The data JSONB column always holds the object
storing the single field content (storeAsset line 137 builds
data = { content }), so the model keeps content directly.  UUIDs become
naturals drawn from a counter; created_at is a natural timestamp. -/

structure AssetRow where
  id : Nat
  created_at : Nat
  owner_category : String
  asset_category : String
  owner_key : String
  asset_key : String
  description : Option String
  content : String
  data_hash : String
deriving DecidableEq, Repr

/-- One row of public.asset_log.  Its created_at has DEFAULT
CURRENT_TIMESTAMP (schema.js line 23) and is not part of the copied
column list of the history INSERT. -/
structure LogRow where
  id : Nat
  asset_id : Nat
  created_at : Nat
  owner_category : String
  asset_category : String
  owner_key : String
  asset_key : String
  description : Option String
  content : String
  data_hash : String
deriving DecidableEq, Repr

/-- The persistent state: the two relations plus fresh-id counters
standing in for gen_random_uuid(). -/
structure Database where
  assets : List AssetRow
  logs : List LogRow
  nextAssetId : Nat
  nextLogId : Nat
deriving DecidableEq, Repr

def Database.empty : Database := ⟨[], [], 0, 0⟩

/-- WHERE owner_key = $1 AND asset_key = $2 (the lookup used both by
getAsset and by the upsert's existence check). -/
def assetMatches (ownerKey key : String) (r : AssetRow) : Bool :=
  r.owner_key = ownerKey && r.asset_key = key

/-- The optional category filter of getAsset: JS appends the
asset_category clause only when category is truthy, so a missing or
empty-string category filters nothing (database.ts line 89). -/
def catFilter (category : Option String) (r : AssetRow) : Bool :=
  match category with
  | none => true
  | some c => if c = "" then true else r.asset_category = c

/-- getAsset(key, category?): first row matching
(owner_key = self.ownerKey, asset_key = key[, asset_category]), or none.
(database.ts lines 76-127; result.rows[0], unique by the
UNIQUE(owner_key, asset_key) constraint.) -/
def getAsset (ownerKey key : String) (category : Option String)
    (db : Database) : Option AssetRow :=
  db.assets.find? (fun r => assetMatches ownerKey key r && catFilter category r)

/-- storeAsset(key, content, category = 'default', description?)
(database.ts lines 129-229): one transaction that
looks up the existing row by (ownerKey, key); if present with a different
data_hash it copies the row's asset_id, owner_category, asset_category,
owner_key, asset_key, description, data, data_hash into asset_log (the
log row's id and created_at come from column defaults) and then updates
the asset's data, data_hash, description and created_at := now; if
present with the same hash it does nothing; if absent it inserts a fresh
row.  The copy and the update address the row by its primary-key id, so
with unique ids they touch exactly the row the lookup returned. -/
def storeAsset (hash : String → String) (ownerCategory ownerKey : String)
    (key content : String) (category : String) (description : Option String)
    (now : Nat) (db : Database) : Database :=
  let dataHash := dataHashOf hash content
  match db.assets.find? (assetMatches ownerKey key) with
  | some existing =>
    if existing.data_hash ≠ dataHash then
      let logRow : LogRow :=
        { id := db.nextLogId
          asset_id := existing.id
          created_at := now
          owner_category := existing.owner_category
          asset_category := existing.asset_category
          owner_key := existing.owner_key
          asset_key := existing.asset_key
          description := existing.description
          content := existing.content
          data_hash := existing.data_hash }
      { db with
          assets := db.assets.map (fun r =>
            if r.id = existing.id then
              { r with content := content, data_hash := dataHash,
                       description := description, created_at := now }
            else r)
          logs := db.logs ++ [logRow]
          nextLogId := db.nextLogId + 1 }
    else db
  | none =>
    let newRow : AssetRow :=
      { id := db.nextAssetId
        created_at := now
        owner_category := ownerCategory
        asset_category := category
        owner_key := ownerKey
        asset_key := key
        description := description
        content := content
        data_hash := dataHash }
    { db with
        assets := db.assets ++ [newRow]
        nextAssetId := db.nextAssetId + 1 }

/-- Primary-key freshness: every persisted id is below the id counter, so
a newly inserted row never collides with an existing one (the model's
counterpart of id UUID PRIMARY KEY). -/
def FreshIds (db : Database) : Prop :=
  ∀ r ∈ db.assets, r.id < db.nextAssetId

instance (db : Database) : Decidable (FreshIds db) := by
  unfold FreshIds; infer_instance

/-- The invariant of claim C6: each asset row's data_hash is the digest of
the serialised form of the content it currently stores. -/
def HashInv (hash : String → String) (db : Database) : Prop :=
  ∀ r ∈ db.assets, r.data_hash = dataHashOf hash r.content

/-- A history row is a verbatim copy of an asset row when every field of
the snapshot (including its timestamp) equals the corresponding field of
the asset row it snapshots. -/
def VerbatimCopy (e : LogRow) (r : AssetRow) : Prop :=
  e.asset_id = r.id ∧ e.created_at = r.created_at ∧
  e.owner_category = r.owner_category ∧
  e.asset_category = r.asset_category ∧
  e.owner_key = r.owner_key ∧ e.asset_key = r.asset_key ∧
  e.description = r.description ∧ e.content = r.content ∧
  e.data_hash = r.data_hash

instance (e : LogRow) (r : AssetRow) : Decidable (VerbatimCopy e r) := by
  unfold VerbatimCopy; infer_instance

/-! ## JavaScript values, as seen by getConfig

The resolver's projection maps keys to parsed JSON data; getConfig walks
it with optional-chained property access.  We model the JSON-like values
such data can take.  The intermediate walk value can also be the JS
undefined, modelled as the none of an Option. -/

inductive JsValue where
  | null
  | bool (b : Bool)
  | num (n : Int)
  | str (s : String)
  | arr (elems : List JsValue)
  | obj (fields : List (String × JsValue))

/-- JS truthiness on these values (NaN, absent from the integer model, is
the only other falsy value). -/
def isFalsy : JsValue → Bool
  | .null => true
  | .bool b => !b
  | .num n => n = 0
  | .str s => s = ""
  | _ => false

/-- The check on line 55 of service.ts: if (!this.configData) — true when
configData was never set (undefined) or holds a falsy value. -/
def configDataFalsy : Option JsValue → Bool
  | none => true
  | some v => isFalsy v

/-- value?.[k]: optional-chained property access.  Own properties of
objects, canonical numeric indices and length of arrays and strings;
every other access yields undefined (inherited function-valued members
are outside the value model). -/
def propAccess : JsValue → String → Option JsValue
  | .obj fields, k => (fields.find? (fun p => p.1 = k)).map Prod.snd
  | .arr elems, k =>
    if k = "length" then some (.num elems.length)
    else match k.toNat? with
      | some i => if toString i = k then elems.get? i else none
      | none => none
  | .str s, k =>
    if k = "length" then some (.num s.length)
    else match k.toNat? with
      | some i => if toString i = k then
                    (s.data.get? i).map (fun c => .str (String.singleton c))
                  else none
      | none => none
  | _, _ => none

/-- The loop of getConfig (service.ts lines 67-69): starting from the
value found under the first path segment, chase the remaining segments,
stopping as soon as the value is undefined. -/
def walkPath : Option JsValue → List String → Option JsValue
  | v, [] => v
  | none, _ :: _ => none
  | some v, k :: ks => walkPath (propAccess v k) ks

/-- What a getConfig call hands back to JavaScript: undefined, null, or a
proper value (never itself null or undefined). -/
inductive JsOut where
  | undef
  | nullv
  | val (v : JsValue)

/-- Collapse a walk result into the returned JS value: a found null is
returned as the very same null the absent-marker uses. -/
def toOut : Option JsValue → JsOut
  | none => .undef
  | some .null => .nullv
  | some v => .val v

/-! ## The resolver (config-service/src/service.ts, types.ts)

A configured source is a tagged variant: the github variant's load
outcome is read off the world (the remote), the database variant reads
and writes the shared asset store.  The assetKey is the source's
configured key; a database source also carries its optional category. -/

inductive SourceSpec where
  | github (assetKey : String)
  | database (assetKey : String) (category : Option String)

/-- config.type, the string tag switched on in service.ts. -/
def SourceSpec.typeName : SourceSpec → String
  | .github _ => "github"
  | .database _ _ => "database"

/-- source.getName(). -/
def SourceSpec.sourceName : SourceSpec → String
  | .github k => "github:" ++ k
  | .database k _ => "database:" ++ k

/-- One entry of ConfigServiceOptions.sources. -/
structure SourceCfg where
  priority : Int
  spec : SourceSpec

/-- The constructor's [...options.sources].sort((a, b) => a.priority -
b.priority) (types.ts line 46): an ascending stable sort. -/
def sortByPriority (l : List SourceCfg) : List SourceCfg :=
  List.insertionSort (fun a b => a.priority ≤ b.priority) l

/-- JS Map.set: replacing an existing key keeps its position, a new key
is appended. -/
def mapSet {A : Type} (m : List (String × A)) (k : String) (v : A) :
    List (String × A) :=
  if (m.map Prod.fst).contains k then
    m.map (fun p => if p.1 = k then (k, v) else p)
  else m ++ [(k, v)]

/-- The map key template type:priority of initializeSources
(service.ts line 43). -/
def sourceKey (c : SourceCfg) : String :=
  c.spec.typeName ++ ":" ++ toString c.priority

/-- initializeSources: iterate the (already priority-sorted) configured
sources and store each in the sources map. -/
def buildSources (cfgs : List SourceCfg) : List (String × SourceCfg) :=
  (sortByPriority cfgs).foldl (fun m c => mapSet m (sourceKey c) c) []

/-- Everything the service closes over: the abstract sha256 digest, the
owner identity of the one AssetDatabaseService behind the database
sources, the caller-supplied parser (a throw is an error result) and the
caller-supplied processConfig, abstracted as the list of set calls it
performs on the cleared configs map. -/
structure Ctx where
  hash : String → String
  ownerCategory : String
  ownerKey : String
  parseFn : String → Except String JsValue
  projector : JsValue → List (String × JsValue)

/-- The external world a reload runs against: the remote content by asset
key (an error is a failed fetch), the shared database state, and whether
a database write currently fails (an I/O fault rolls the transaction
back, leaving the state unchanged, and surfaces as a thrown
StoreWriteError). -/
structure World where
  github : String → Except String String
  db : Database
  storeFails : Bool

/-- GitHubConfigSource.load(): return the remote content or rethrow the
failure wrapped in its message (sources/github.ts lines 18-38). -/
def githubSourceLoad (w : World) (assetKey : String) : Except String String :=
  match w.github assetKey with
  | .ok content => .ok content
  | .error e => .error ("Failed to load config from GitHub: " ++ e)

/-- DatabaseConfigSource.load() (sources/database.ts lines 21-53): look
the asset up; a missing row or a falsy data.content (the empty string)
throws; otherwise data.content is returned. -/
def databaseSourceLoad (ctx : Ctx) (w : World) (assetKey : String)
    (category : Option String) : Except String String :=
  match getAsset ctx.ownerKey assetKey category w.db with
  | none => .error "Failed to load config from database: Asset not found"
  | some row =>
    if row.content = "" then
      .error "Failed to load config from database: Invalid asset structure"
    else .ok row.content

/-- source.load() for either source kind. -/
def entryLoad (ctx : Ctx) (w : World) (s : SourceSpec) : Except String String :=
  match s with
  | .github k => githubSourceLoad w k
  | .database k cat => databaseSourceLoad ctx w k cat

/-- this.category || 'config' — an absent or empty-string (falsy)
category falls back to 'config'. -/
def storeCat : Option String → String
  | some c => if c = "" then "config" else c
  | none => "config"

/-- DatabaseConfigSource.store(content) (sources/database.ts lines
55-108): storeAsset under the source's assetKey with category
this.category || 'config' (an empty string is falsy) and the fixed
description.  A failing write throws; a successful one commits. -/
def databaseSourceStore (ctx : Ctx) (w : World) (assetKey : String)
    (category : Option String) (content : String) (now : Nat) :
    Except String World :=
  if w.storeFails then
    .error "Failed to store config in database"
  else
    .ok { w with db := storeAsset ctx.hash ctx.ownerCategory ctx.ownerKey
                        assetKey content (storeCat category)
                        (some "Configuration data cached from GitHub") now w.db }

/-- cacheToDatabase(content) (service.ts lines 152-164): find the first
database source, call its store, and swallow (log only) any failure. -/
def cacheToDatabase (ctx : Ctx) (now : Nat)
    (entries : List (String × SourceCfg)) (content : String) (w : World) :
    World :=
  match entries.find? (fun e => e.2.spec.typeName = "database") with
  | some (_, c) =>
    match c.spec with
    | .database k cat =>
      match databaseSourceStore ctx w k cat content now with
      | .ok w' => w'
      | .error _ => w
    | .github _ => w
  | none => w

/-- The value a successful walk hands back (ConfigLoadResult). -/
structure LoadResult where
  data : JsValue
  source : String
  cached : Bool

/-- The source walk of loadConfiguration (service.ts lines 105-150),
with the attempts log returned alongside (one entry per
attempting-to-load log line).  Each iteration loads, then parses — a
throw from either is caught and the walk continues; on the first
load-and-parse success a github win is written through to the database
(the read-only compare load of lines 116-127 has no observable effect
and is elided), lastLoadSource is set to config.type, and the walk
stops.  When the list is exhausted the walk yields none. -/
def loadConfigAux (ctx : Ctx) (now : Nat)
    (allEntries : List (String × SourceCfg)) :
    List (String × SourceCfg) → World → List String →
    Option (LoadResult × String) × World × List String
  | [], w, att => (none, w, att)
  | (k, c) :: rest, w, att =>
    match entryLoad ctx w c.spec with
    | .error _ => loadConfigAux ctx now allEntries rest w (att ++ [k])
    | .ok content =>
      match ctx.parseFn content with
      | .error _ => loadConfigAux ctx now allEntries rest w (att ++ [k])
      | .ok data =>
        let w' := if c.spec.typeName = "github" then
                    cacheToDatabase ctx now allEntries content w
                  else w
        (some ({ data := data, source := c.spec.sourceName, cached := false },
               c.spec.typeName), w', att ++ [k])

/-- loadConfiguration: walk this.sources in map order. -/
def loadConfiguration (ctx : Ctx) (now : Nat)
    (entries : List (String × SourceCfg)) (w : World) :
    Option (LoadResult × String) × World × List String :=
  loadConfigAux ctx now entries entries w []

/-- The resolver's mutable state (types.ts lines 36-41): the configs map,
configData, the initialization flag and lastLoadSource. -/
structure ServiceState where
  configs : List (String × JsValue)
  configData : Option JsValue
  initDone : Bool
  lastLoadSource : Option String

def ServiceState.fresh : ServiceState :=
  { configs := [], configData := none, initDone := false,
    lastLoadSource := none }

/-- processConfiguration (service.ts lines 98-103): clear the configs map
and replay the processor's set calls into it. -/
def processConfiguration (ctx : Ctx) (data : JsValue) :
    List (String × JsValue) :=
  (ctx.projector data).foldl (fun m kv => mapSet m kv.1 kv.2) []

/-- reload() (service.ts lines 79-96): run the walk; on success store the
parsed data, rebuild the projection and mark initialized (the walk has
already recorded lastLoadSource); on failure clear configData and the
projection, mark initialized, and return normally — every source error
was already caught inside the walk, so the failure path throws
nothing. -/
def reload (ctx : Ctx) (now : Nat) (entries : List (String × SourceCfg))
    (w : World) (s : ServiceState) : World × ServiceState :=
  match loadConfiguration ctx now entries w with
  | (some (r, typ), w', _) =>
    (w', { s with configData := some r.data,
                  configs := processConfiguration ctx r.data,
                  initDone := true,
                  lastLoadSource := some typ })
  | (none, w', _) =>
    (w', { s with configData := none, configs := [], initDone := true })

/-- ensureInitialized (types.ts lines 60-64): reload on first use only. -/
def ensureInit (ctx : Ctx) (now : Nat) (entries : List (String × SourceCfg))
    (w : World) (s : ServiceState) : World × ServiceState :=
  if s.initDone then (w, s) else reload ctx now entries w s

/-- Helper for splitDot: accumulate the current segment (reversed). -/
def splitDotAux : List Char → List Char → List String
  | [], acc => [String.mk acc.reverse]
  | c :: cs, acc =>
    if c = '.' then String.mk acc.reverse :: splitDotAux cs []
    else splitDotAux cs (c :: acc)

/-- JS String.prototype.split('.') on the key: always at least one
segment, empty segments kept. -/
def splitDot (s : String) : List String := splitDotAux s.data []

/-- getConfig(key?) (service.ts lines 51-72): ensure a load happened;
with falsy configData return null; with a falsy key (absent or the
empty string) return the projection as an object; otherwise split the
key on dots and walk. -/
def getConfig (ctx : Ctx) (now : Nat) (entries : List (String × SourceCfg))
    (w : World) (s : ServiceState) (key : Option String) :
    JsOut × World × ServiceState :=
  let ws := ensureInit ctx now entries w s
  let s' := ws.2
  if configDataFalsy s'.configData then (.nullv, ws.1, s')
  else
    match key with
    | none => (.val (.obj s'.configs), ws.1, s')
    | some k =>
      if k = "" then (.val (.obj s'.configs), ws.1, s')
      else
        match splitDot k with
        | [] => (.undef, ws.1, s')
        | k0 :: ks =>
          (toOut (walkPath
            ((s'.configs.find? (fun p => p.1 = k0)).map Prod.snd) ks),
           ws.1, s')

/-- getLastLoadSource() (types.ts lines 55-58). -/
def getLastLoadSource (s : ServiceState) : Option String :=
  s.lastLoadSource

/-! ## The TTL cache (github-asset-client/src/cache.ts)

AssetCache wraps an lru-cache instance configured with max 500, the
given ttl, updateAgeOnGet: true and updateAgeOnHas: false.  The wrapped
library is an external dependency whose code is not in the repository,
so its store is modelled from the spec. -/

/-- The value type cached by AssetCache (types.d.ts lines 16-23). -/
structure AssetResponse where
  path : String
  content : String
  sha : String
  size : Nat
  encoding : Option String
  cached : Option Bool
deriving DecidableEq, Repr

/-- One cache slot: the value and the time its TTL started. -/
structure CacheSlot where
  value : AssetResponse
  start : Nat
deriving DecidableEq, Repr

/-- Modelled from the spec: the external lru-cache store — a
capacity-bounded key/value list in least-recently-used-first order with
per-entry TTL.  The spec fixes the behaviour the wrapper relies on:
entries expire once the TTL has elapsed since their start, an expired
entry behaves as a miss and is evicted, a read refreshes recency (and,
with updateAgeOnGet, the TTL start), and an overflowing set evicts the
least-recently-accessed entry first. -/
structure LRUStore where
  entries : List (String × CacheSlot)
  max : Nat
  ttl : Nat
deriving DecidableEq, Repr

/-- Modelled from the spec: an entry is expired once its TTL has elapsed
since its start. -/
def cacheExpired (ttl now start : Nat) : Bool :=
  start + ttl ≤ now

/-- Modelled from the spec: lru-cache get — a miss on an absent or
expired key (evicting the expired entry); a hit refreshes the entry's
recency and TTL start and returns the stored value. -/
def lruGet (c : LRUStore) (k : String) (now : Nat) :
    Option AssetResponse × LRUStore :=
  match c.entries.find? (fun p => p.1 = k) with
  | none => (none, c)
  | some (_, slot) =>
    if cacheExpired c.ttl now slot.start then
      (none, { c with entries := c.entries.filter (fun p => ¬ p.1 = k) })
    else
      (some slot.value,
       { c with entries := c.entries.filter (fun p => ¬ p.1 = k)
                             ++ [(k, { slot with start := now })] })

/-- Modelled from the spec: lru-cache set — (re)insert the key at the
most-recently-used end with a fresh TTL start, then evict from the
least-recently-used end down to capacity. -/
def lruSet (c : LRUStore) (k : String) (v : AssetResponse) (now : Nat) :
    LRUStore :=
  let es := c.entries.filter (fun p => ¬ p.1 = k) ++ [(k, ⟨v, now⟩)]
  { c with entries := es.drop (es.length - c.max) }

/-- AssetCache.get (cache.ts lines 16-22): a hit is returned as
a copy of the stored value with cached overwritten to true. -/
def assetCacheGet (c : LRUStore) (k : String) (now : Nat) :
    Option AssetResponse × LRUStore :=
  match lruGet c k now with
  | (some v, c') => (some { v with cached := some true }, c')
  | (none, c') => (none, c')

/-- AssetCache.set (cache.ts lines 24-26). -/
def assetCacheSet (c : LRUStore) (k : String) (v : AssetResponse)
    (now : Nat) : LRUStore :=
  lruSet c k v now

/-- One attempt of the source walk: the parsed data when both the load
and the parse succeed, none when either throws. -/
def attemptOk (ctx : Ctx) (w : World) (s : SourceSpec) : Option JsValue :=
  (entryLoad ctx w s).toOption.bind fun content => (ctx.parseFn content).toOption

/-! ## Helper lemmas about the asset store -/

lemma getAsset_none_cat (ok key : String) (db : Database) :
    getAsset ok key none db = db.assets.find? (assetMatches ok key) := by
  simp [getAsset, catFilter]

/-- The row update of the upsert changes neither key column, so the
lookup predicate cannot distinguish a row from its updated form. -/
lemma assetMatches_update (ok key : String) (exId : Nat) (c h : String)
    (d : Option String) (t : Nat) (r : AssetRow) :
    assetMatches ok key (if r.id = exId then
      { r with content := c, data_hash := h, description := d,
               created_at := t } else r) = assetMatches ok key r := by
  by_cases hid : r.id = exId <;> simp [hid, assetMatches]

/-- After any storeAsset the lookup by (ownerKey, key) finds a row whose
data_hash is the digest of the stored content; the row holds the stored
content itself unless the call was a no-op on a pre-existing matching
row (which can only differ from the content under a digest collision). -/
lemma find?_assets_storeAsset (hash : String → String)
    (oc ok key c cat : String) (desc : Option String) (now : Nat)
    (db : Database) :
    ∃ r', (storeAsset hash oc ok key c cat desc now db).assets.find?
            (assetMatches ok key) = some r' ∧
          r'.data_hash = dataHashOf hash c ∧
          (r'.content = c ∨
            (r' ∈ db.assets ∧ assetMatches ok key r' = true)) := by
  unfold storeAsset
  cases hfind : db.assets.find? (assetMatches ok key) with
  | none =>
    refine ⟨⟨db.nextAssetId, now, oc, cat, ok, key, desc, c,
            dataHashOf hash c⟩, ?_, rfl, Or.inl rfl⟩
    simp only [List.find?_append, hfind, Option.none_or]
    simp [assetMatches]
  | some ex =>
    by_cases hne : ex.data_hash = dataHashOf hash c
    · exact ⟨ex, by simp [hne, hfind], hne,
        Or.inr ⟨List.mem_of_find?_eq_some hfind, List.find?_some hfind⟩⟩
    · refine ⟨{ ex with content := c, data_hash := dataHashOf hash c,
                        description := desc, created_at := now }, ?_, rfl,
              Or.inl rfl⟩
      have hcomp : (assetMatches ok key ∘ fun r =>
          if r.id = ex.id then
            { r with content := c, data_hash := dataHashOf hash c,
                     description := desc, created_at := now }
          else r) = assetMatches ok key := by
        funext r
        exact assetMatches_update ok key ex.id c (dataHashOf hash c) desc now r
      simp only [ne_eq, hne, not_false_eq_true, ite_true, List.find?_map,
        hcomp, hfind, Option.map_some]
      simp

/-! ## C5 — storing identical content twice is idempotent -/

/-- C5: a second storeAsset with the same content under the same key (any
category, description or time) leaves the database state — asset row,
created_at, history — exactly as the first call left it; and across any
single storeAsset the history grows by one row when the key exists with a
different stored hash and by zero rows otherwise. -/
theorem storeAsset_same_content_idempotent (hash : String → String)
    (oc ok key c cat₁ cat₂ : String) (desc₁ desc₂ : Option String)
    (t₁ t₂ : Nat) (db : Database) :
    storeAsset hash oc ok key c cat₂ desc₂ t₂
        (storeAsset hash oc ok key c cat₁ desc₁ t₁ db) =
      storeAsset hash oc ok key c cat₁ desc₁ t₁ db ∧
    (storeAsset hash oc ok key c cat₁ desc₁ t₁ db).logs.length =
      db.logs.length +
        (match db.assets.find? (assetMatches ok key) with
         | some r => if r.data_hash ≠ dataHashOf hash c then 1 else 0
         | none => 0) := by
  constructor
  · obtain ⟨r', hf, hh, -⟩ :=
      find?_assets_storeAsset hash oc ok key c cat₁ desc₁ t₁ db
    generalize hg : storeAsset hash oc ok key c cat₁ desc₁ t₁ db = db₁ at hf ⊢
    unfold storeAsset
    simp [hf, hh]
  · unfold storeAsset
    cases hfind : db.assets.find? (assetMatches ok key) with
    | none => simp
    | some ex =>
      by_cases hne : ex.data_hash ≠ dataHashOf hash c
      · simp [hne]
      · simp [hne]

/-! ## C6 — data_hash always digests the stored content -/

instance (hash : String → String) (db : Database) :
    Decidable (HashInv hash db) := by
  unfold HashInv; infer_instance

/-- C6: the empty database satisfies, and storeAsset preserves, the
invariant that every asset row's data_hash column is the digest of the
exact content the row currently stores — so it holds after any sequence
of storeAsset calls.  The transaction is a single atomic transition of
the model, so no intermediate mismatched state exists. -/
theorem storeAsset_hash_invariant (hash : String → String)
    (oc ok key c cat : String) (desc : Option String) (now : Nat)
    (db : Database) (hinv : HashInv hash db) :
    HashInv hash Database.empty ∧
    HashInv hash (storeAsset hash oc ok key c cat desc now db) := by
  refine ⟨by intro r hr; exact absurd hr (List.not_mem_nil r), ?_⟩
  unfold storeAsset
  cases hfind : db.assets.find? (assetMatches ok key) with
  | none =>
    intro r hr
    simp only [List.mem_append, List.mem_singleton] at hr
    rcases hr with hr | hr
    · exact hinv r hr
    · subst hr; rfl
  | some ex =>
    by_cases hne : ex.data_hash ≠ dataHashOf hash c
    · simp only [if_pos hne]
      intro r hr
      simp only [List.mem_map] at hr
      obtain ⟨r₀, hr₀, hfr⟩ := hr
      by_cases hid : r₀.id = ex.id
      · subst hfr; simp [hid]
      · subst hfr; simpa [hid] using hinv r₀ hr₀
    · simpa [hne] using hinv

/-- C6 witness: the invariant holds concretely after storing one asset
into the empty database (with the identity standing in for the digest). -/
theorem storeAsset_hash_invariant_witness :
    HashInv (fun s => s) Database.empty ∧
    HashInv (fun s => s)
      (storeAsset (fun s => s) "app" "owner" "k" "v" "config" none 0
        Database.empty) :=
  storeAsset_hash_invariant (fun s => s) "app" "owner" "k" "v" "config"
    none 0 Database.empty (by decide)

/-! ## C9 — the update path's frame -/

/-- C9: when the key already exists with a different stored hash, the
update rewrites exactly data (content), data_hash, description and
created_at of the matched row — id, owner_category, asset_category,
owner_key and asset_key keep their stored values, every other row is
untouched, and the category argument does not influence the result at
all; the description column is overwritten with the argument even when
the argument is absent. -/
theorem storeAsset_update_frame (hash : String → String)
    (oc ok key c cat : String) (desc : Option String) (now : Nat)
    (db : Database) (ex : AssetRow)
    (hfind : db.assets.find? (assetMatches ok key) = some ex)
    (hne : ex.data_hash ≠ dataHashOf hash c) :
    (∀ cat₂, storeAsset hash oc ok key c cat₂ desc now db =
             storeAsset hash oc ok key c cat desc now db) ∧
    (storeAsset hash oc ok key c cat desc now db).assets =
      db.assets.map (fun r => if r.id = ex.id then
        { r with content := c, data_hash := dataHashOf hash c,
                 description := desc, created_at := now } else r) := by
  constructor
  · intro cat₂
    unfold storeAsset
    simp [hfind, hne]
  · unfold storeAsset
    simp [hfind, hne]

/-- The concrete store state used to witness the update-path theorems:
one asset for key k holding content a, stored at time 0 (the identity
function stands in for the sha256 digest). -/
def exampleDb : Database :=
  storeAsset (fun s => s) "app" "owner" "k" "a" "config" none 0
    Database.empty

/-- C9 witness: the frame theorem applied to the concrete one-row store,
overwriting content a with content b under a different category and an
explicit description. -/
theorem storeAsset_update_frame_witness :
    storeAsset (fun s => s) "app" "owner" "k" "b" "other-cat" (some "d") 5
        exampleDb =
      storeAsset (fun s => s) "app" "owner" "k" "b" "config" (some "d") 5
        exampleDb ∧
    (storeAsset (fun s => s) "app" "owner" "k" "b" "config" (some "d") 5
        exampleDb).assets =
      exampleDb.assets.map (fun r =>
        if r.id = (⟨0, 0, "app", "config", "owner", "k", none, "a",
                    "\x7b\"content\":\"a\"\x7d"⟩ : AssetRow).id then
          { r with content := "b",
                   data_hash := dataHashOf (fun s => s) "b",
                   description := some "d", created_at := 5 }
        else r) :=
  ⟨(storeAsset_update_frame (fun s => s) "app" "owner" "k" "b" "config"
      (some "d") 5 exampleDb
      ⟨0, 0, "app", "config", "owner", "k", none, "a",
       "\x7b\"content\":\"a\"\x7d"⟩
      (by decide) (by decide)).1 "other-cat",
   (storeAsset_update_frame (fun s => s) "app" "owner" "k" "b" "config"
      (some "d") 5 exampleDb
      ⟨0, 0, "app", "config", "owner", "k", none, "a",
       "\x7b\"content\":\"a\"\x7d"⟩
      (by decide) (by decide)).2⟩

/-! ## C3 — two stores of different content -/

/-- Closed form of the insert branch of storeAsset. -/
lemma storeAsset_insert_eq (hash : String → String)
    (oc ok key c cat : String) (desc : Option String) (now : Nat)
    (db : Database)
    (habs : db.assets.find? (assetMatches ok key) = none) :
    storeAsset hash oc ok key c cat desc now db =
      { assets := db.assets ++
          [⟨db.nextAssetId, now, oc, cat, ok, key, desc, c,
            dataHashOf hash c⟩],
        logs := db.logs
        nextAssetId := db.nextAssetId + 1
        nextLogId := db.nextLogId } := by
  unfold storeAsset
  rw [habs]

/-- Closed form of the update branch of storeAsset. -/
lemma storeAsset_update_eq (hash : String → String)
    (oc ok key c cat : String) (desc : Option String) (now : Nat)
    (db : Database) (ex : AssetRow)
    (hfind : db.assets.find? (assetMatches ok key) = some ex)
    (hne : ex.data_hash ≠ dataHashOf hash c) :
    storeAsset hash oc ok key c cat desc now db =
      { assets := db.assets.map (fun r =>
          if r.id = ex.id then
            { r with content := c, data_hash := dataHashOf hash c,
                     description := desc, created_at := now }
          else r)
        logs := db.logs ++
          [⟨db.nextLogId, ex.id, now, ex.owner_category, ex.asset_category,
            ex.owner_key, ex.asset_key, ex.description, ex.content,
            ex.data_hash⟩]
        nextAssetId := db.nextAssetId
        nextLogId := db.nextLogId + 1 } := by
  unfold storeAsset
  rw [hfind]
  simp [hne]

/-- C3 (amended): from a state where the key is absent, storing c₁ then
c₂ with differing digests appends exactly one history row. Its asset_id,
owner_category, asset_category, owner_key, asset_key, description, data
and data_hash are verbatim the pre-second-store asset row's values; its
id and created_at come from column defaults, the created_at being the
time of the second store rather than the copied row's timestamp.  The
single asset row for the key afterwards holds c₂ and its digest.  Each
store is one atomic transition (the model of the transaction). -/
theorem storeAsset_two_stores_history (hash : String → String)
    (oc ok key c₁ c₂ cat₁ cat₂ : String) (desc₁ desc₂ : Option String)
    (t₁ t₂ : Nat) (db : Database)
    (hfresh : FreshIds db)
    (habs : db.assets.find? (assetMatches ok key) = none)
    (hne : dataHashOf hash c₁ ≠ dataHashOf hash c₂) :
    (storeAsset hash oc ok key c₁ cat₁ desc₁ t₁ db).logs = db.logs ∧
    (storeAsset hash oc ok key c₂ cat₂ desc₂ t₂
        (storeAsset hash oc ok key c₁ cat₁ desc₁ t₁ db)).logs =
      db.logs ++ [⟨db.nextLogId, db.nextAssetId, t₂, oc, cat₁, ok, key,
                   desc₁, c₁, dataHashOf hash c₁⟩] ∧
    (storeAsset hash oc ok key c₂ cat₂ desc₂ t₂
        (storeAsset hash oc ok key c₁ cat₁ desc₁ t₁ db)).assets =
      db.assets ++ [⟨db.nextAssetId, t₂, oc, cat₁, ok, key, desc₂, c₂,
                     dataHashOf hash c₂⟩] ∧
    (storeAsset hash oc ok key c₂ cat₂ desc₂ t₂
        (storeAsset hash oc ok key c₁ cat₁ desc₁ t₁ db)).assets.filter
        (assetMatches ok key) =
      [⟨db.nextAssetId, t₂, oc, cat₁, ok, key, desc₂, c₂,
        dataHashOf hash c₂⟩] := by
  have h1 := storeAsset_insert_eq hash oc ok key c₁ cat₁ desc₁ t₁ db habs
  have hfind₁ : (storeAsset hash oc ok key c₁ cat₁ desc₁ t₁ db).assets.find?
      (assetMatches ok key) =
      some ⟨db.nextAssetId, t₁, oc, cat₁, ok, key, desc₁, c₁,
            dataHashOf hash c₁⟩ := by
    rw [h1]
    simp only [List.find?_append, habs, Option.none_or]
    simp [assetMatches]
  have h2 := storeAsset_update_eq hash oc ok key c₂ cat₂ desc₂ t₂
    (storeAsset hash oc ok key c₁ cat₁ desc₁ t₁ db)
    ⟨db.nextAssetId, t₁, oc, cat₁, ok, key, desc₁, c₁, dataHashOf hash c₁⟩
    hfind₁ hne
  have hmap : (storeAsset hash oc ok key c₁ cat₁ desc₁ t₁ db).assets.map
      (fun r => if r.id = db.nextAssetId then
        { r with content := c₂, data_hash := dataHashOf hash c₂,
                 description := desc₂, created_at := t₂ }
        else r) =
      db.assets ++ [⟨db.nextAssetId, t₂, oc, cat₁, ok, key, desc₂, c₂,
                     dataHashOf hash c₂⟩] := by
    rw [h1]
    simp only [List.map_append]
    congr 1
    · have : ∀ r ∈ db.assets,
          (if r.id = db.nextAssetId then
            ({ r with content := c₂, data_hash := dataHashOf hash c₂,
                      description := desc₂, created_at := t₂ } : AssetRow)
           else r) = id r := by
        intro r hr
        have := hfresh r hr
        simp [Nat.ne_of_lt this]
      rw [List.map_congr_left this, List.map_id]
    · simp
  refine ⟨by rw [h1], ?_, ?_, ?_⟩
  · rw [h2, h1]
  · rw [h2]
    exact hmap
  · rw [h2]
    simp only [hmap, List.filter_append]
    have hnil : db.assets.filter (assetMatches ok key) = [] :=
      List.filter_eq_nil_iff.mpr (List.find?_eq_none.mp habs)
    rw [hnil]
    simp [assetMatches]

/-- C3 counterexample: with content a stored at time 0 and content b at
time 1, the single history row is not a verbatim copy of the pre-update
asset row — its created_at is 1, the time of the second store, while the
copied row's created_at was 0. -/
theorem storeAsset_history_not_verbatim :
    (storeAsset (fun s => s) "app" "owner" "k" "b" "config" none 1
        exampleDb).logs =
      [⟨0, 0, 1, "app", "config", "owner", "k", none, "a",
        "\x7b\"content\":\"a\"\x7d"⟩] ∧
    exampleDb.assets =
      [⟨0, 0, "app", "config", "owner", "k", none, "a",
        "\x7b\"content\":\"a\"\x7d"⟩] ∧
    ¬ VerbatimCopy
        ⟨0, 0, 1, "app", "config", "owner", "k", none, "a",
         "\x7b\"content\":\"a\"\x7d"⟩
        ⟨0, 0, "app", "config", "owner", "k", none, "a",
         "\x7b\"content\":\"a\"\x7d"⟩ := by
  refine ⟨by decide, by decide, ?_⟩
  intro h
  exact absurd h.2.1 (by decide)

/-! ## Helper lemmas about the source walk -/

/-- One unfolding of the walk on a cons cell. -/
lemma loadConfigAux_cons (ctx : Ctx) (now : Nat)
    (allE : List (String × SourceCfg)) (k : String) (c : SourceCfg)
    (rest : List (String × SourceCfg)) (w : World) (att : List String) :
    loadConfigAux ctx now allE ((k, c) :: rest) w att =
      match entryLoad ctx w c.spec with
      | .error _ => loadConfigAux ctx now allE rest w (att ++ [k])
      | .ok content =>
        match ctx.parseFn content with
        | .error _ => loadConfigAux ctx now allE rest w (att ++ [k])
        | .ok data =>
          (some ({ data := data, source := c.spec.sourceName,
                   cached := false }, c.spec.typeName),
           if c.spec.typeName = "github" then
             cacheToDatabase ctx now allE content w
           else w,
           att ++ [k]) := rfl

/-- A failing load: log the attempt and continue with the rest. -/
lemma loadConfigAux_step_err (ctx : Ctx) (now : Nat)
    (allE : List (String × SourceCfg)) (k : String) (c : SourceCfg)
    (rest : List (String × SourceCfg)) (w : World) (att : List String)
    (msg : String) (hload : entryLoad ctx w c.spec = .error msg) :
    loadConfigAux ctx now allE ((k, c) :: rest) w att =
      loadConfigAux ctx now allE rest w (att ++ [k]) := by
  rw [loadConfigAux_cons, hload]

/-- A load whose parse throws: also continue with the rest. -/
lemma loadConfigAux_step_parse_err (ctx : Ctx) (now : Nat)
    (allE : List (String × SourceCfg)) (k : String) (c : SourceCfg)
    (rest : List (String × SourceCfg)) (w : World) (att : List String)
    (content msg : String)
    (hload : entryLoad ctx w c.spec = .ok content)
    (hparse : ctx.parseFn content = .error msg) :
    loadConfigAux ctx now allE ((k, c) :: rest) w att =
      loadConfigAux ctx now allE rest w (att ++ [k]) := by
  rw [loadConfigAux_cons, hload]
  show (match ctx.parseFn content with
        | .error _ => loadConfigAux ctx now allE rest w (att ++ [k])
        | .ok data =>
          (some ({ data := data, source := c.spec.sourceName,
                   cached := false }, c.spec.typeName),
           if c.spec.typeName = "github" then
             cacheToDatabase ctx now allE content w
           else w,
           att ++ [k])) = _
  rw [hparse]

/-- A load-and-parse success: the walk stops here. -/
lemma loadConfigAux_step_ok (ctx : Ctx) (now : Nat)
    (allE : List (String × SourceCfg)) (k : String) (c : SourceCfg)
    (rest : List (String × SourceCfg)) (w : World) (att : List String)
    (content : String) (d : JsValue)
    (hload : entryLoad ctx w c.spec = .ok content)
    (hparse : ctx.parseFn content = .ok d) :
    loadConfigAux ctx now allE ((k, c) :: rest) w att =
      (some ({ data := d, source := c.spec.sourceName, cached := false },
             c.spec.typeName),
       if c.spec.typeName = "github" then
         cacheToDatabase ctx now allE content w
       else w,
       att ++ [k]) := by
  rw [loadConfigAux_cons, hload]
  show (match ctx.parseFn content with
        | .error _ => loadConfigAux ctx now allE rest w (att ++ [k])
        | .ok data =>
          (some ({ data := data, source := c.spec.sourceName,
                   cached := false }, c.spec.typeName),
           if c.spec.typeName = "github" then
             cacheToDatabase ctx now allE content w
           else w,
           att ++ [k])) = _
  rw [hparse]

lemma loadConfigAux_all_fail (ctx : Ctx) (now : Nat)
    (allE : List (String × SourceCfg)) :
    ∀ (entries : List (String × SourceCfg)) (w : World) (att : List String),
      (∀ e ∈ entries, attemptOk ctx w e.2.spec = none) →
      loadConfigAux ctx now allE entries w att =
        (none, w, att ++ entries.map Prod.fst) := by
  intro entries
  induction entries with
  | nil => intro w att _; simp [loadConfigAux]
  | cons e rest ih =>
    intro w att hfail
    obtain ⟨k, c⟩ := e
    have hrest : ∀ e' ∈ rest, attemptOk ctx w e'.2.spec = none := by
      intro e' he'
      exact hfail e' (by simp [he'])
    cases hload : entryLoad ctx w c.spec with
    | error msg =>
      rw [loadConfigAux_step_err ctx now allE k c rest w att msg hload,
          ih w (att ++ [k]) hrest]
      simp
    | ok content =>
      cases hparse : ctx.parseFn content with
      | error msg =>
        rw [loadConfigAux_step_parse_err ctx now allE k c rest w att
              content msg hload hparse,
            ih w (att ++ [k]) hrest]
        simp
      | ok d =>
        exfalso
        have hsome : attemptOk ctx w c.spec = some d := by
          simp [attemptOk, hload, hparse, Except.toOption]
        rw [hfail (k, c) (by simp)] at hsome
        exact Option.noConfusion hsome

lemma loadConfigAux_first_success (ctx : Ctx) (now : Nat)
    (allE : List (String × SourceCfg)) :
    ∀ (pre : List (String × SourceCfg)) (k : String) (c : SourceCfg)
      (post : List (String × SourceCfg)) (w : World) (att : List String)
      (content : String) (d : JsValue),
      (∀ e ∈ pre, attemptOk ctx w e.2.spec = none) →
      entryLoad ctx w c.spec = .ok content →
      ctx.parseFn content = .ok d →
      loadConfigAux ctx now allE (pre ++ (k, c) :: post) w att =
        (some ({ data := d, source := c.spec.sourceName, cached := false },
               c.spec.typeName),
         (if c.spec.typeName = "github" then
            cacheToDatabase ctx now allE content w
          else w),
         att ++ pre.map Prod.fst ++ [k]) := by
  intro pre
  induction pre with
  | nil =>
    intro k c post w att content d _ hload hparse
    rw [List.nil_append,
        loadConfigAux_step_ok ctx now allE k c post w att content d
          hload hparse]
    simp
  | cons e rest ih =>
    intro k c post w att content d hfail hload hparse
    obtain ⟨k₀, c₀⟩ := e
    have hrest : ∀ e' ∈ rest, attemptOk ctx w e'.2.spec = none := by
      intro e' he'
      exact hfail e' (by simp [he'])
    have step := ih k c post w (att ++ [k₀]) content d hrest hload hparse
    cases hload₀ : entryLoad ctx w c₀.spec with
    | error msg =>
      rw [List.cons_append,
          loadConfigAux_step_err ctx now allE k₀ c₀ _ w att msg hload₀,
          step]
      simp
    | ok content₀ =>
      cases hparse₀ : ctx.parseFn content₀ with
      | error msg =>
        rw [List.cons_append,
            loadConfigAux_step_parse_err ctx now allE k₀ c₀ _ w att
              content₀ msg hload₀ hparse₀,
            step]
        simp
      | ok d₀ =>
        exfalso
        have hsome : attemptOk ctx w c₀.spec = some d₀ := by
          simp [attemptOk, hload₀, hparse₀, Except.toOption]
        rw [hfail (k₀, c₀) (by simp)] at hsome
        exact Option.noConfusion hsome

/-! ## C1 — an all-sources-fail reload is benign -/

/-- C1: when the load of every configured source fails, reload returns
normally (the embedding is a total function: every source error is
caught inside the walk), clears configData and the projection, marks the
service initialized, leaves the world untouched — and every later
getConfig call, with or without a path, returns the null absent-marker
and changes nothing, until some later reload succeeds. -/
theorem reload_all_sources_fail (ctx : Ctx) (now : Nat)
    (cfgs : List SourceCfg) (w : World) (s : ServiceState)
    (hfail : ∀ e ∈ buildSources cfgs,
      (entryLoad ctx w e.2.spec).isOk = false) :
    reload ctx now (buildSources cfgs) w s =
      (w, { configs := [], configData := none, initDone := true,
            lastLoadSource := s.lastLoadSource }) ∧
    ∀ key, getConfig ctx now (buildSources cfgs) w
        { configs := [], configData := none, initDone := true,
          lastLoadSource := s.lastLoadSource } key =
      (.nullv, w,
       { configs := [], configData := none, initDone := true,
         lastLoadSource := s.lastLoadSource }) := by
  have hfail' : ∀ e ∈ buildSources cfgs, attemptOk ctx w e.2.spec = none := by
    intro e he
    have hif := hfail e he
    unfold attemptOk
    cases h : entryLoad ctx w e.2.spec with
    | error m => rfl
    | ok c => rw [h] at hif; simp [Except.isOk, Except.toBool] at hif
  constructor
  · unfold reload loadConfiguration
    rw [loadConfigAux_all_fail ctx now _ _ w [] hfail']
  · intro key
    unfold getConfig ensureInit
    simp [configDataFalsy]

/-- C1 witness: two sources (remote down, empty database) both fail; the
reload clears everything and getConfig yields null for no key, a plain
key and a dotted path. -/
theorem reload_all_sources_fail_witness :
    (reload
        ⟨fun s => s, "app", "owner", fun _ => Except.ok JsValue.null,
         fun _ => []⟩ 0
        (buildSources [⟨1, .github "g"⟩, ⟨2, .database "d" none⟩])
        ⟨fun _ => Except.error "down", Database.empty, false⟩
        ServiceState.fresh =
      (⟨fun _ => Except.error "down", Database.empty, false⟩,
       { configs := [], configData := none, initDone := true,
         lastLoadSource := none }) ∧
    ∀ key, getConfig
        ⟨fun s => s, "app", "owner", fun _ => Except.ok JsValue.null,
         fun _ => []⟩ 0
        (buildSources [⟨1, .github "g"⟩, ⟨2, .database "d" none⟩])
        ⟨fun _ => Except.error "down", Database.empty, false⟩
        { configs := [], configData := none, initDone := true,
          lastLoadSource := none } key =
      (.nullv, ⟨fun _ => Except.error "down", Database.empty, false⟩,
       { configs := [], configData := none, initDone := true,
         lastLoadSource := none })) :=
  reload_all_sources_fail
    ⟨fun s => s, "app", "owner", fun _ => Except.ok JsValue.null,
     fun _ => []⟩ 0
    [⟨1, .github "g"⟩, ⟨2, .database "d" none⟩]
    ⟨fun _ => Except.error "down", Database.empty, false⟩
    ServiceState.fresh
    (by decide)

/-! ## C10 — lastLoadSource survives a failed reload -/

/-- C10: lastLoadSource is written only by a successful walk.  After a
reload that succeeded with winner type typ, a second reload in which
every source's load fails clears the data and the projection but leaves
lastLoadSource = some typ, so getLastLoadSource still reports the old
winner while getConfig reports the null absent-marker. -/
theorem lastLoadSource_survives_failed_reload (ctx : Ctx)
    (now₁ now₂ : Nat) (entries : List (String × SourceCfg))
    (w₁ w₂ w₁' : World) (s₀ : ServiceState) (r : LoadResult)
    (typ : String) (att : List String)
    (h₁ : loadConfiguration ctx now₁ entries w₁ = (some (r, typ), w₁', att))
    (h₂ : ∀ e ∈ entries, (entryLoad ctx w₂ e.2.spec).isOk = false) :
    (reload ctx now₁ entries w₁ s₀).2.lastLoadSource = some typ ∧
    reload ctx now₂ entries w₂ (reload ctx now₁ entries w₁ s₀).2 =
      (w₂, { configs := [], configData := none, initDone := true,
             lastLoadSource := some typ }) ∧
    getLastLoadSource
      (reload ctx now₂ entries w₂ (reload ctx now₁ entries w₁ s₀).2).2 =
      some typ ∧
    ∀ key, getConfig ctx now₂ entries w₂
        { configs := [], configData := none, initDone := true,
          lastLoadSource := some typ } key =
      (.nullv, w₂,
       { configs := [], configData := none, initDone := true,
         lastLoadSource := some typ }) := by
  have hfail' : ∀ e ∈ entries, attemptOk ctx w₂ e.2.spec = none := by
    intro e he
    have hif := h₂ e he
    unfold attemptOk
    cases h : entryLoad ctx w₂ e.2.spec with
    | error m => rfl
    | ok c => rw [h] at hif; simp [Except.isOk, Except.toBool] at hif
  have hs₁ : (reload ctx now₁ entries w₁ s₀).2 =
      { s₀ with configData := some r.data,
                configs := processConfiguration ctx r.data,
                initDone := true, lastLoadSource := some typ } := by
    unfold reload
    rw [h₁]
  have hs₂ : reload ctx now₂ entries w₂ (reload ctx now₁ entries w₁ s₀).2 =
      (w₂, { configs := [], configData := none, initDone := true,
             lastLoadSource := some typ }) := by
    rw [hs₁]
    unfold reload loadConfiguration
    rw [loadConfigAux_all_fail ctx now₂ _ _ w₂ [] hfail']
  refine ⟨by rw [hs₁], hs₂, by rw [hs₂]; rfl, ?_⟩
  intro key
  unfold getConfig ensureInit
  simp [configDataFalsy]

/-- C10 witness: a single remote source succeeds (winner type github),
then the remote goes down; the failed reload keeps
getLastLoadSource = some "github" while getConfig is null. -/
theorem lastLoadSource_survives_failed_reload_witness :
    (reload
        ⟨fun s => s, "app", "owner", fun _ => Except.ok (JsValue.num 1),
         fun _ => []⟩ 0
        (buildSources [⟨1, .github "g"⟩])
        ⟨fun _ => Except.ok "one", Database.empty, false⟩
        ServiceState.fresh).2.lastLoadSource = some "github" ∧
    reload
        ⟨fun s => s, "app", "owner", fun _ => Except.ok (JsValue.num 1),
         fun _ => []⟩ 1
        (buildSources [⟨1, .github "g"⟩])
        ⟨fun _ => Except.error "down", Database.empty, false⟩
        (reload
          ⟨fun s => s, "app", "owner", fun _ => Except.ok (JsValue.num 1),
           fun _ => []⟩ 0
          (buildSources [⟨1, .github "g"⟩])
          ⟨fun _ => Except.ok "one", Database.empty, false⟩
          ServiceState.fresh).2 =
      (⟨fun _ => Except.error "down", Database.empty, false⟩,
       { configs := [], configData := none, initDone := true,
         lastLoadSource := some "github" }) ∧
    getLastLoadSource
      (reload
        ⟨fun s => s, "app", "owner", fun _ => Except.ok (JsValue.num 1),
         fun _ => []⟩ 1
        (buildSources [⟨1, .github "g"⟩])
        ⟨fun _ => Except.error "down", Database.empty, false⟩
        (reload
          ⟨fun s => s, "app", "owner", fun _ => Except.ok (JsValue.num 1),
           fun _ => []⟩ 0
          (buildSources [⟨1, .github "g"⟩])
          ⟨fun _ => Except.ok "one", Database.empty, false⟩
          ServiceState.fresh).2).2 = some "github" ∧
    ∀ key, getConfig
        ⟨fun s => s, "app", "owner", fun _ => Except.ok (JsValue.num 1),
         fun _ => []⟩ 1
        (buildSources [⟨1, .github "g"⟩])
        ⟨fun _ => Except.error "down", Database.empty, false⟩
        { configs := [], configData := none, initDone := true,
          lastLoadSource := some "github" } key =
      (.nullv, ⟨fun _ => Except.error "down", Database.empty, false⟩,
       { configs := [], configData := none, initDone := true,
         lastLoadSource := some "github" }) :=
  lastLoadSource_survives_failed_reload
    ⟨fun s => s, "app", "owner", fun _ => Except.ok (JsValue.num 1),
     fun _ => []⟩ 0 1
    (buildSources [⟨1, .github "g"⟩])
    ⟨fun _ => Except.ok "one", Database.empty, false⟩
    ⟨fun _ => Except.error "down", Database.empty, false⟩
    ⟨fun _ => Except.ok "one", Database.empty, false⟩
    ServiceState.fresh
    ⟨JsValue.num 1, "github:g", false⟩ "github" ["github:1"]
    rfl
    (by decide)

/-! ## C2 — priority order and first-win -/

/-- buildSources on the github-then-database pair. -/
lemma buildSources_gh_db (gk dk : String) (dcat : Option String) :
    buildSources [⟨1, .github gk⟩, ⟨2, .database dk dcat⟩] =
      [("github:1", ⟨1, .github gk⟩),
       ("database:2", ⟨2, .database dk dcat⟩)] := rfl

/-- buildSources sorts: the same pair given database-first. -/
lemma buildSources_db_gh (gk dk : String) (dcat : Option String) :
    buildSources [⟨2, .database dk dcat⟩, ⟨1, .github gk⟩] =
      [("github:1", ⟨1, .github gk⟩),
       ("database:2", ⟨2, .database dk dcat⟩)] := rfl

/-- C2 counterexample: the github source's load() itself succeeds (with
content the parser rejects), yet the walk goes on to attempt the
database source, which wins — so the first successful load() does not
always win; only the first successful load-and-parse does. -/
theorem first_load_win_refuted :
    entryLoad
        ⟨fun s => s, "app", "owner",
         fun s => if s = "GOOD" then Except.ok (JsValue.num 7)
                  else Except.error "parse",
         fun _ => [("x", JsValue.num 7)]⟩
        ⟨fun _ => Except.ok "BAD",
         storeAsset (fun s => s) "app" "owner" "d" "GOOD" "config" none 0
           Database.empty, false⟩
        (SourceSpec.github "g") = Except.ok "BAD" ∧
    (loadConfiguration
        ⟨fun s => s, "app", "owner",
         fun s => if s = "GOOD" then Except.ok (JsValue.num 7)
                  else Except.error "parse",
         fun _ => [("x", JsValue.num 7)]⟩ 0
        (buildSources [⟨1, .github "g"⟩, ⟨2, .database "d" none⟩])
        ⟨fun _ => Except.ok "BAD",
         storeAsset (fun s => s) "app" "owner" "d" "GOOD" "config" none 0
           Database.empty, false⟩).2.2 = ["github:1", "database:2"] ∧
    (loadConfiguration
        ⟨fun s => s, "app", "owner",
         fun s => if s = "GOOD" then Except.ok (JsValue.num 7)
                  else Except.error "parse",
         fun _ => [("x", JsValue.num 7)]⟩ 0
        (buildSources [⟨1, .github "g"⟩, ⟨2, .database "d" none⟩])
        ⟨fun _ => Except.ok "BAD",
         storeAsset (fun s => s) "app" "owner" "d" "GOOD" "config" none 0
           Database.empty, false⟩).1 =
      some ({ data := JsValue.num 7, source := "database:d",
              cached := false }, "database") :=
  ⟨rfl, rfl, rfl⟩

/-- C2 (amended): sources are sorted ascending by priority once at
construction and attempted strictly in that order; the first source
whose load() and subsequent parse both succeed wins and no later source
is attempted (a load whose parse fails falls through to the next source
like a failed load).  In particular, for sources Network(priority 1) and
Durable(priority 2) — configured in either order — when the network
load fails and the durable store holds a value, the walk attempts
github:1 then database:2, the result is derived from the durable
content, lastLoadSource is "database", and getConfig returns the
durable-derived projection. -/
theorem sources_sorted_first_success_wins :
    (∀ (ctx : Ctx) (now : Nat) (allE : List (String × SourceCfg))
       (pre : List (String × SourceCfg)) (k : String) (c : SourceCfg)
       (post : List (String × SourceCfg)) (w : World) (att : List String)
       (content : String) (d : JsValue),
      (∀ e ∈ pre, attemptOk ctx w e.2.spec = none) →
      entryLoad ctx w c.spec = .ok content →
      ctx.parseFn content = .ok d →
      loadConfigAux ctx now allE (pre ++ (k, c) :: post) w att =
        (some ({ data := d, source := c.spec.sourceName, cached := false },
               c.spec.typeName),
         (if c.spec.typeName = "github" then
            cacheToDatabase ctx now allE content w
          else w),
         att ++ pre.map Prod.fst ++ [k])) ∧
    (∀ (ctx : Ctx) (now : Nat) (gk dk : String) (dcat : Option String)
       (w : World) (msg : String) (row : AssetRow) (d : JsValue)
       (s : ServiceState),
      w.github gk = .error msg →
      getAsset ctx.ownerKey dk dcat w.db = some row →
      row.content ≠ "" →
      ctx.parseFn row.content = .ok d →
      loadConfiguration ctx now
          (buildSources [⟨2, .database dk dcat⟩, ⟨1, .github gk⟩]) w =
        (some ({ data := d, source := "database:" ++ dk, cached := false },
               "database"), w, ["github:1", "database:2"]) ∧
      ServiceState.lastLoadSource
        (reload ctx now
          (buildSources [⟨2, .database dk dcat⟩, ⟨1, .github gk⟩]) w s).2 =
        some "database" ∧
      getLastLoadSource
        (reload ctx now
          (buildSources [⟨2, .database dk dcat⟩, ⟨1, .github gk⟩]) w s).2 =
        some "database" ∧
      (isFalsy d = false →
        getConfig ctx now
            (buildSources [⟨2, .database dk dcat⟩, ⟨1, .github gk⟩]) w
            (reload ctx now
              (buildSources [⟨2, .database dk dcat⟩, ⟨1, .github gk⟩])
              w s).2 none =
          (.val (.obj (processConfiguration ctx d)), w,
           (reload ctx now
             (buildSources [⟨2, .database dk dcat⟩, ⟨1, .github gk⟩])
             w s).2))) := by
  constructor
  · intro ctx now allE pre k c post w att content d hfail hload hparse
    exact loadConfigAux_first_success ctx now allE pre k c post w att
      content d hfail hload hparse
  · intro ctx now gk dk dcat w msg row d s hgh hrow hnz hparse
    have hloadg : entryLoad ctx w (SourceSpec.github gk) =
        .error ("Failed to load config from GitHub: " ++ msg) := by
      simp [entryLoad, githubSourceLoad, hgh]
    have hloadd : entryLoad ctx w (SourceSpec.database dk dcat) =
        .ok row.content := by
      simp [entryLoad, databaseSourceLoad, hrow, hnz]
    have hwalk : loadConfiguration ctx now
        (buildSources [⟨2, .database dk dcat⟩, ⟨1, .github gk⟩]) w =
        (some ({ data := d, source := "database:" ++ dk, cached := false },
               "database"), w, ["github:1", "database:2"]) := by
      unfold loadConfiguration
      rw [buildSources_db_gh]
      have hpre : ∀ e ∈ [("github:1",
          (⟨1, .github gk⟩ : SourceCfg))], attemptOk ctx w e.2.spec = none := by
        intro e he
        simp only [List.mem_singleton] at he
        subst he
        simp [attemptOk, hloadg, Except.toOption]
      have := loadConfigAux_first_success ctx now
        [("github:1", ⟨1, .github gk⟩), ("database:2", ⟨2, .database dk dcat⟩)]
        [("github:1", ⟨1, .github gk⟩)] "database:2" ⟨2, .database dk dcat⟩
        [] w [] row.content d hpre hloadd hparse
      simpa [SourceSpec.sourceName, SourceSpec.typeName] using this
    have hrel : (reload ctx now
        (buildSources [⟨2, .database dk dcat⟩, ⟨1, .github gk⟩]) w s) =
        (w, { s with configData := some d,
                     configs := processConfiguration ctx d,
                     initDone := true,
                     lastLoadSource := some "database" }) := by
      unfold reload
      rw [hwalk]
    refine ⟨hwalk, by rw [hrel], by rw [hrel]; rfl, ?_⟩
    intro hd
    rw [hrel]
    unfold getConfig ensureInit
    simp [configDataFalsy, hd]

/-- C2 witness: the amended theorem applied concretely — part one at a
one-element walk that succeeds immediately, part two at a network-down
world whose database holds parseable content. -/
theorem sources_sorted_first_success_wins_witness :
    loadConfigAux
        ⟨fun s => s, "app", "owner", fun _ => Except.ok (JsValue.num 3),
         fun _ => []⟩ 0
        [("database:1", ⟨1, .database "d" none⟩)]
        ([] ++ ("database:1", (⟨1, .database "d" none⟩ : SourceCfg)) :: [])
        ⟨fun _ => Except.error "down",
         storeAsset (fun s => s) "app" "owner" "d" "GOOD" "config" none 0
           Database.empty, false⟩ [] =
      (some ({ data := JsValue.num 3,
               source := (SourceSpec.database "d" none).sourceName,
               cached := false },
             (SourceSpec.database "d" none).typeName),
       (if (SourceSpec.database "d" none).typeName = "github" then
          cacheToDatabase
            ⟨fun s => s, "app", "owner", fun _ => Except.ok (JsValue.num 3),
             fun _ => []⟩ 0
            [("database:1", ⟨1, .database "d" none⟩)] "GOOD"
            ⟨fun _ => Except.error "down",
             storeAsset (fun s => s) "app" "owner" "d" "GOOD" "config"
               none 0 Database.empty, false⟩
        else
          ⟨fun _ => Except.error "down",
           storeAsset (fun s => s) "app" "owner" "d" "GOOD" "config" none 0
             Database.empty, false⟩),
       [] ++ List.map Prod.fst ([] : List (String × SourceCfg)) ++
         ["database:1"]) ∧
    loadConfiguration
        ⟨fun s => s, "app", "owner", fun _ => Except.ok (JsValue.num 3),
         fun _ => []⟩ 0
        (buildSources [⟨2, .database "d" none⟩, ⟨1, .github "g"⟩])
        ⟨fun _ => Except.error "down",
         storeAsset (fun s => s) "app" "owner" "d" "GOOD" "config" none 0
           Database.empty, false⟩ =
      (some ({ data := JsValue.num 3, source := "database:" ++ "d",
               cached := false }, "database"),
       ⟨fun _ => Except.error "down",
        storeAsset (fun s => s) "app" "owner" "d" "GOOD" "config" none 0
          Database.empty, false⟩,
       ["github:1", "database:2"]) :=
  ⟨(sources_sorted_first_success_wins.1
      ⟨fun s => s, "app", "owner", fun _ => Except.ok (JsValue.num 3),
       fun _ => []⟩ 0
      [("database:1", ⟨1, .database "d" none⟩)] [] "database:1"
      ⟨1, .database "d" none⟩ []
      ⟨fun _ => Except.error "down",
       storeAsset (fun s => s) "app" "owner" "d" "GOOD" "config" none 0
         Database.empty, false⟩ [] "GOOD" (JsValue.num 3)
      (by intro e he; exact absurd he (List.not_mem_nil e))
      rfl rfl),
   (sources_sorted_first_success_wins.2
      ⟨fun s => s, "app", "owner", fun _ => Except.ok (JsValue.num 3),
       fun _ => []⟩ 0 "g" "d" none
      ⟨fun _ => Except.error "down",
       storeAsset (fun s => s) "app" "owner" "d" "GOOD" "config" none 0
         Database.empty, false⟩ "down"
      ⟨0, 0, "app", "config", "owner", "d", none, "GOOD",
       "\x7b\"content\":\"GOOD\"\x7d"⟩ (JsValue.num 3)
      ServiceState.fresh rfl (by decide) (by decide) rfl).1⟩

/-! ## C4 — write-through of a github win -/

/-- After storeAsset under (ownerKey, key), getAsset on that key returns
a row holding the stored content, provided no other row for the key
collides with its digest. -/
lemma getAsset_after_storeAsset (hash : String → String)
    (oc ok key c cat : String) (desc : Option String) (now : Nat)
    (db : Database)
    (hCol : ∀ r ∈ db.assets, r.owner_key = ok → r.asset_key = key →
            r.data_hash = dataHashOf hash c → r.content = c) :
    ∃ row, getAsset ok key none
        (storeAsset hash oc ok key c cat desc now db) = some row ∧
      row.content = c := by
  obtain ⟨r', hf, hh, hc⟩ :=
    find?_assets_storeAsset hash oc ok key c cat desc now db
  refine ⟨r', ?_, ?_⟩
  · rw [getAsset_none_cat]
    exact hf
  · rcases hc with hc | ⟨hmem, hp⟩
    · exact hc
    · have hok : r'.owner_key = ok ∧ r'.asset_key = key := by
        simpa [assetMatches] using hp
      exact hCol r' hmem hok.1 hok.2 hh

/-- cacheToDatabase over the github-then-database source map: a failing
write is swallowed and leaves the world unchanged; a successful one
stores the raw content under the database source's key. -/
lemma cacheToDatabase_gh_db (ctx : Ctx) (now : Nat) (gk dk : String)
    (dcat : Option String) (X : String) (w' : World) :
    cacheToDatabase ctx now
        (buildSources [⟨1, .github gk⟩, ⟨2, .database dk dcat⟩]) X w' =
      if w'.storeFails then w'
      else { w' with db := storeAsset ctx.hash ctx.ownerCategory
                      ctx.ownerKey dk X (storeCat dcat)
                      (some "Configuration data cached from GitHub")
                      now w'.db } := by
  unfold cacheToDatabase databaseSourceStore
  rw [buildSources_gh_db]
  by_cases h : w'.storeFails <;> simp [h, SourceSpec.typeName]

/-- C4: when the github source's load and parse succeed with raw content
X, the walk's caller-visible result is the github win, and the raw
unparsed content is written through to the configured database source:
with a functioning store, a subsequent getAsset under the database
source's key returns a row whose stored form equals X (barring a digest
collision, excluded by hCol); with a failing store the failure is
swallowed — the walk result, the resulting service state and the
database are identical to the caller except that nothing was persisted,
and nothing propagates (the embedding of reload stays a total
function). -/
theorem github_write_through (ctx : Ctx) (now : Nat) (gk dk : String)
    (dcat : Option String) (w : World) (X : String) (d : JsValue)
    (s : ServiceState)
    (hgh : w.github gk = .ok X)
    (hparse : ctx.parseFn X = .ok d)
    (hCol : ∀ r ∈ w.db.assets, r.owner_key = ctx.ownerKey →
            r.asset_key = dk → r.data_hash = dataHashOf ctx.hash X →
            r.content = X) :
    (loadConfiguration ctx now
        (buildSources [⟨1, .github gk⟩, ⟨2, .database dk dcat⟩])
        { w with storeFails := false }).1 =
      some ({ data := d, source := "github:" ++ gk, cached := false },
            "github") ∧
    (∃ row, getAsset ctx.ownerKey dk none
        (loadConfiguration ctx now
          (buildSources [⟨1, .github gk⟩, ⟨2, .database dk dcat⟩])
          { w with storeFails := false }).2.1.db = some row ∧
      row.content = X) ∧
    (loadConfiguration ctx now
        (buildSources [⟨1, .github gk⟩, ⟨2, .database dk dcat⟩])
        { w with storeFails := true }).1 =
      (loadConfiguration ctx now
        (buildSources [⟨1, .github gk⟩, ⟨2, .database dk dcat⟩])
        { w with storeFails := false }).1 ∧
    (loadConfiguration ctx now
        (buildSources [⟨1, .github gk⟩, ⟨2, .database dk dcat⟩])
        { w with storeFails := true }).2.1.db = w.db ∧
    (reload ctx now
        (buildSources [⟨1, .github gk⟩, ⟨2, .database dk dcat⟩])
        { w with storeFails := true } s).2 =
      (reload ctx now
        (buildSources [⟨1, .github gk⟩, ⟨2, .database dk dcat⟩])
        { w with storeFails := false } s).2 := by
  have hloadg : ∀ b : Bool,
      entryLoad ctx { w with storeFails := b } (SourceSpec.github gk) =
        .ok X := by
    intro b
    simp [entryLoad, githubSourceLoad, hgh]
  have hwalk : ∀ b : Bool,
      loadConfiguration ctx now
        (buildSources [⟨1, .github gk⟩, ⟨2, .database dk dcat⟩])
        { w with storeFails := b } =
      (some ({ data := d, source := "github:" ++ gk, cached := false },
             "github"),
       cacheToDatabase ctx now
         (buildSources [⟨1, .github gk⟩, ⟨2, .database dk dcat⟩]) X
         { w with storeFails := b },
       ["github:1"]) := by
    intro b
    unfold loadConfiguration
    rw [buildSources_gh_db]
    have hstep := loadConfigAux_first_success ctx now
      [("github:1", ⟨1, .github gk⟩), ("database:2", ⟨2, .database dk dcat⟩)]
      [] "github:1" ⟨1, .github gk⟩
      [("database:2", ⟨2, .database dk dcat⟩)]
      { w with storeFails := b } [] X d
      (by intro e he; exact absurd he (List.not_mem_nil e))
      (hloadg b) hparse
    rw [List.nil_append] at hstep
    rw [hstep, ← buildSources_gh_db gk dk dcat]
    simp [SourceSpec.sourceName, SourceSpec.typeName]
  have hcf := cacheToDatabase_gh_db ctx now gk dk dcat X
    { w with storeFails := false }
  have hct := cacheToDatabase_gh_db ctx now gk dk dcat X
    { w with storeFails := true }
  simp only [if_neg Bool.false_ne_true] at hcf
  rw [if_pos rfl] at hct
  refine ⟨by rw [hwalk false], ?_, ?_, ?_, ?_⟩
  · rw [hwalk false]
    have := getAsset_after_storeAsset ctx.hash ctx.ownerCategory
      ctx.ownerKey dk X (storeCat dcat)
      (some "Configuration data cached from GitHub") now w.db hCol
    simpa [hcf] using this
  · rw [hwalk true, hwalk false]
  · rw [hwalk true]
    simp [hct]
  · unfold reload
    rw [hwalk true, hwalk false]

/-- C4 witness: concrete remote content written through into the empty
database and read back; the failing-store variant leaves the database
empty and yields the identical service state. -/
theorem github_write_through_witness :
    (loadConfiguration
        ⟨fun s => s, "app", "owner", fun _ => Except.ok (JsValue.num 9),
         fun _ => []⟩ 0
        (buildSources [⟨1, .github "g"⟩, ⟨2, .database "d" none⟩])
        { github := fun _ => Except.ok "X-content", db := Database.empty,
          storeFails := false }).1 =
      some ({ data := JsValue.num 9, source := "github:" ++ "g",
              cached := false }, "github") ∧
    (∃ row, getAsset "owner" "d" none
        (loadConfiguration
          ⟨fun s => s, "app", "owner", fun _ => Except.ok (JsValue.num 9),
           fun _ => []⟩ 0
          (buildSources [⟨1, .github "g"⟩, ⟨2, .database "d" none⟩])
          { github := fun _ => Except.ok "X-content", db := Database.empty,
            storeFails := false }).2.1.db = some row ∧
      row.content = "X-content") ∧
    (loadConfiguration
        ⟨fun s => s, "app", "owner", fun _ => Except.ok (JsValue.num 9),
         fun _ => []⟩ 0
        (buildSources [⟨1, .github "g"⟩, ⟨2, .database "d" none⟩])
        { github := fun _ => Except.ok "X-content", db := Database.empty,
          storeFails := true }).1 =
      (loadConfiguration
        ⟨fun s => s, "app", "owner", fun _ => Except.ok (JsValue.num 9),
         fun _ => []⟩ 0
        (buildSources [⟨1, .github "g"⟩, ⟨2, .database "d" none⟩])
        { github := fun _ => Except.ok "X-content", db := Database.empty,
          storeFails := false }).1 ∧
    (loadConfiguration
        ⟨fun s => s, "app", "owner", fun _ => Except.ok (JsValue.num 9),
         fun _ => []⟩ 0
        (buildSources [⟨1, .github "g"⟩, ⟨2, .database "d" none⟩])
        { github := fun _ => Except.ok "X-content", db := Database.empty,
          storeFails := true }).2.1.db = Database.empty ∧
    (reload
        ⟨fun s => s, "app", "owner", fun _ => Except.ok (JsValue.num 9),
         fun _ => []⟩ 0
        (buildSources [⟨1, .github "g"⟩, ⟨2, .database "d" none⟩])
        { github := fun _ => Except.ok "X-content", db := Database.empty,
          storeFails := true } ServiceState.fresh).2 =
      (reload
        ⟨fun s => s, "app", "owner", fun _ => Except.ok (JsValue.num 9),
         fun _ => []⟩ 0
        (buildSources [⟨1, .github "g"⟩, ⟨2, .database "d" none⟩])
        { github := fun _ => Except.ok "X-content", db := Database.empty,
          storeFails := false } ServiceState.fresh).2 :=
  github_write_through
    ⟨fun s => s, "app", "owner", fun _ => Except.ok (JsValue.num 9),
     fun _ => []⟩ 0 "g" "d" none
    { github := fun _ => Except.ok "X-content", db := Database.empty,
      storeFails := false }
    "X-content" (JsValue.num 9) ServiceState.fresh rfl rfl
    (by intro r hr; exact absurd hr (List.not_mem_nil r))

/-! ## C7 — dotted-path lookup and the absent-marker -/

/-- C7 (amended): with a successfully loaded truthy configuration whose
projection maps a to the object with b ↦ 1, getConfig("a.b") splits the
key on dots, walks the nested properties and returns 1, while
getConfig("a.c") returns undefined; and whenever configData is unset
(nothing was obtained from any source) getConfig returns the null
absent-marker for every path.  Null is however not returned only then:
a JS-falsy parsed configuration also produces it (see the
counterexample), so the two sides of the marker contract are one-way. -/
theorem getConfig_dotted_walk (ctx : Ctx) (now : Nat)
    (entries : List (String × SourceCfg)) (w : World) (s : ServiceState)
    (D : JsValue)
    (hinit : s.initDone = true)
    (hdata : s.configData = some D)
    (htruthy : isFalsy D = false)
    (hconf : s.configs = [("a", .obj [("b", .num 1)])]) :
    getConfig ctx now entries w s (some "a.b") = (.val (.num 1), w, s) ∧
    getConfig ctx now entries w s (some "a.c") = (.undef, w, s) ∧
    (∀ (s₂ : ServiceState) (key : Option String), s₂.initDone = true →
      s₂.configData = none →
      getConfig ctx now entries w s₂ key = (.nullv, w, s₂)) := by
  have hsb : splitDot "a.b" = ["a", "b"] := rfl
  have hsc : splitDot "a.c" = ["a", "c"] := rfl
  refine ⟨?_, ?_, ?_⟩
  · unfold getConfig ensureInit
    simp [hinit, configDataFalsy, hdata, htruthy, hconf, hsb,
      walkPath, propAccess, toOut]
  · unfold getConfig ensureInit
    simp [hinit, configDataFalsy, hdata, htruthy, hconf, hsc,
      walkPath, propAccess, toOut]
  · intro s₂ key hinit₂ hdata₂
    unfold getConfig ensureInit
    simp [hinit₂, configDataFalsy, hdata₂]

/-- C7 witness: the dotted-path theorem applied to a loaded state with
projection a ↦ (b ↦ 1), plus the absent case at a cleared state and a
dotted path. -/
theorem getConfig_dotted_walk_witness :
    getConfig
        ⟨fun s => s, "app", "owner", fun _ => Except.ok JsValue.null,
         fun _ => []⟩ 0 []
        ⟨fun _ => Except.error "down", Database.empty, false⟩
        ⟨[("a", .obj [("b", .num 1)])],
         some (.obj [("a", .obj [("b", .num 1)])]), true, some "github"⟩
        (some "a.b") =
      (.val (.num 1),
       ⟨fun _ => Except.error "down", Database.empty, false⟩,
       ⟨[("a", .obj [("b", .num 1)])],
        some (.obj [("a", .obj [("b", .num 1)])]), true, some "github"⟩) ∧
    getConfig
        ⟨fun s => s, "app", "owner", fun _ => Except.ok JsValue.null,
         fun _ => []⟩ 0 []
        ⟨fun _ => Except.error "down", Database.empty, false⟩
        ⟨[("a", .obj [("b", .num 1)])],
         some (.obj [("a", .obj [("b", .num 1)])]), true, some "github"⟩
        (some "a.c") =
      (.undef,
       ⟨fun _ => Except.error "down", Database.empty, false⟩,
       ⟨[("a", .obj [("b", .num 1)])],
        some (.obj [("a", .obj [("b", .num 1)])]), true, some "github"⟩) ∧
    getConfig
        ⟨fun s => s, "app", "owner", fun _ => Except.ok JsValue.null,
         fun _ => []⟩ 0 []
        ⟨fun _ => Except.error "down", Database.empty, false⟩
        ⟨[], none, true, none⟩ (some "any.path") =
      (.nullv,
       ⟨fun _ => Except.error "down", Database.empty, false⟩,
       ⟨[], none, true, none⟩) :=
  ⟨(getConfig_dotted_walk
      ⟨fun s => s, "app", "owner", fun _ => Except.ok JsValue.null,
       fun _ => []⟩ 0 []
      ⟨fun _ => Except.error "down", Database.empty, false⟩
      ⟨[("a", .obj [("b", .num 1)])],
       some (.obj [("a", .obj [("b", .num 1)])]), true, some "github"⟩
      (.obj [("a", .obj [("b", .num 1)])]) rfl rfl rfl rfl).1,
   (getConfig_dotted_walk
      ⟨fun s => s, "app", "owner", fun _ => Except.ok JsValue.null,
       fun _ => []⟩ 0 []
      ⟨fun _ => Except.error "down", Database.empty, false⟩
      ⟨[("a", .obj [("b", .num 1)])],
       some (.obj [("a", .obj [("b", .num 1)])]), true, some "github"⟩
      (.obj [("a", .obj [("b", .num 1)])]) rfl rfl rfl rfl).2.1,
   (getConfig_dotted_walk
      ⟨fun s => s, "app", "owner", fun _ => Except.ok JsValue.null,
       fun _ => []⟩ 0 []
      ⟨fun _ => Except.error "down", Database.empty, false⟩
      ⟨[("a", .obj [("b", .num 1)])],
       some (.obj [("a", .obj [("b", .num 1)])]), true, some "github"⟩
      (.obj [("a", .obj [("b", .num 1)])]) rfl rfl rfl rfl).2.2
     ⟨[], none, true, none⟩ (some "any.path") rfl rfl⟩

/-- C7 counterexample: a source succeeds and the caller's parser returns
the falsy value 0; configuration was obtained from a source (the walk
reports a github win and configData is set), yet getConfig returns the
null absent-marker — so null is not returned only when no configuration
was obtained at all. -/
theorem null_despite_loaded_config :
    (loadConfiguration
        ⟨fun s => s, "app", "owner", fun _ => Except.ok (JsValue.num 0),
         fun _ => []⟩ 0
        (buildSources [⟨1, .github "g"⟩])
        ⟨fun _ => Except.ok "0", Database.empty, false⟩).1 =
      some ({ data := JsValue.num 0, source := "github:g",
              cached := false }, "github") ∧
    (reload
        ⟨fun s => s, "app", "owner", fun _ => Except.ok (JsValue.num 0),
         fun _ => []⟩ 0
        (buildSources [⟨1, .github "g"⟩])
        ⟨fun _ => Except.ok "0", Database.empty, false⟩
        ServiceState.fresh).2.configData = some (JsValue.num 0) ∧
    getConfig
        ⟨fun s => s, "app", "owner", fun _ => Except.ok (JsValue.num 0),
         fun _ => []⟩ 0
        (buildSources [⟨1, .github "g"⟩])
        ⟨fun _ => Except.ok "0", Database.empty, false⟩
        (reload
          ⟨fun s => s, "app", "owner", fun _ => Except.ok (JsValue.num 0),
           fun _ => []⟩ 0
          (buildSources [⟨1, .github "g"⟩])
          ⟨fun _ => Except.ok "0", Database.empty, false⟩
          ServiceState.fresh).2 none =
      (.nullv, ⟨fun _ => Except.ok "0", Database.empty, false⟩,
       (reload
          ⟨fun s => s, "app", "owner", fun _ => Except.ok (JsValue.num 0),
           fun _ => []⟩ 0
          (buildSources [⟨1, .github "g"⟩])
          ⟨fun _ => Except.ok "0", Database.empty, false⟩
          ServiceState.fresh).2) :=
  ⟨rfl, rfl, rfl⟩

/-! ## C8 — the TTL cache round-trip -/

/-- After a set, the key is present with the fresh value and TTL start
(the capacity eviction cannot remove the entry just inserted at the
most-recently-used end while the capacity is positive). -/
lemma find?_after_lruSet (c : LRUStore) (k : String) (v : AssetResponse)
    (t : Nat) (hmax : 0 < c.max) :
    (lruSet c k v t).entries.find? (fun p => p.1 = k) =
      some (k, ⟨v, t⟩) := by
  unfold lruSet
  have hlen : (c.entries.filter (fun p => ¬ p.1 = k) ++
      [(k, (⟨v, t⟩ : CacheSlot))]).length =
      (c.entries.filter (fun p => ¬ p.1 = k)).length + 1 := by simp
  show List.find? (fun p => p.1 = k)
      ((c.entries.filter (fun p => ¬ p.1 = k) ++
        [(k, (⟨v, t⟩ : CacheSlot))]).drop
        ((c.entries.filter (fun p => ¬ p.1 = k) ++
          [(k, (⟨v, t⟩ : CacheSlot))]).length - c.max)) =
    some (k, ⟨v, t⟩)
  rw [hlen, List.drop_append_of_le_length (by omega), List.find?_append]
  have hnone : ((c.entries.filter (fun p => ¬ p.1 = k)).drop
      ((c.entries.filter (fun p => ¬ p.1 = k)).length + 1 - c.max)).find?
      (fun p => p.1 = k) = none := by
    apply List.find?_eq_none.mpr
    intro x hx
    have hx' := List.mem_of_mem_drop hx
    have := (List.mem_filter.mp hx').2
    simpa using this
  rw [hnone]
  simp

/-- C8 (amended): with positive TTL and capacity, set(k, v) followed
immediately by get(k) returns v with its cached flag overwritten to
true (all other fields equal — the result is v itself exactly when
v.cached was already true); and once the TTL has elapsed since the
insertion, with no intervening access, get(k) returns the absent
result. -/
theorem cache_roundtrip_and_expiry (c : LRUStore) (k : String)
    (v : AssetResponse) (t t' : Nat)
    (httl : 0 < c.ttl) (hmax : 0 < c.max) :
    (assetCacheGet (assetCacheSet c k v t) k t).1 =
      some { v with cached := some true } ∧
    (t + c.ttl ≤ t' →
      (assetCacheGet (assetCacheSet c k v t) k t').1 = none) := by
  have hf : (assetCacheSet c k v t).entries.find? (fun p => p.1 = k) =
      some (k, ⟨v, t⟩) := find?_after_lruSet c k v t hmax
  have httlEq : (assetCacheSet c k v t).ttl = c.ttl := rfl
  constructor
  · have hexp : cacheExpired (assetCacheSet c k v t).ttl t t = false := by
      rw [httlEq]
      simp [cacheExpired]
      omega
    unfold assetCacheGet lruGet
    rw [hf]
    simp [hexp]
  · intro hel
    have hexp : cacheExpired (assetCacheSet c k v t).ttl t' t = true := by
      rw [httlEq]
      simpa [cacheExpired] using hel
    unfold assetCacheGet lruGet
    rw [hf]
    simp [hexp]

/-- C8 witness: round-trip and expiry on a concrete empty cache with
TTL 5 and capacity 500, inserting at time 0 and reading at times 0
and 5. -/
theorem cache_roundtrip_and_expiry_witness :
    (assetCacheGet
        (assetCacheSet ⟨[], 500, 5⟩ "k"
          ⟨"p", "body", "sha1", 4, none, some false⟩ 0) "k" 0).1 =
      some ⟨"p", "body", "sha1", 4, none, some true⟩ ∧
    (assetCacheGet
        (assetCacheSet ⟨[], 500, 5⟩ "k"
          ⟨"p", "body", "sha1", 4, none, some false⟩ 0) "k" 5).1 = none :=
  ⟨(cache_roundtrip_and_expiry ⟨[], 500, 5⟩ "k"
      ⟨"p", "body", "sha1", 4, none, some false⟩ 0 5
      (by decide) (by decide)).1,
   (cache_roundtrip_and_expiry ⟨[], 500, 5⟩ "k"
      ⟨"p", "body", "sha1", 4, none, some false⟩ 0 5
      (by decide) (by decide)).2 (by decide)⟩

/-- C8 counterexample: the wrapper returns the stored value with cached
overwritten to true, so when v.cached is false the value returned by an
immediate get differs from the v that was set. -/
theorem cache_get_not_identical :
    (assetCacheGet
        (assetCacheSet ⟨[], 500, 5⟩ "k"
          ⟨"p", "body", "sha1", 4, none, some false⟩ 0) "k" 0).1 ≠
      some ⟨"p", "body", "sha1", 4, none, some false⟩ := by decide

/-- C3 witness: the amended theorem applied from the empty database,
storing a at time 0 then b at time 1. -/
theorem storeAsset_two_stores_history_witness :
    (storeAsset (fun s => s) "app" "owner" "k" "a" "config" none 0
        Database.empty).logs = Database.empty.logs ∧
    (storeAsset (fun s => s) "app" "owner" "k" "b" "config" none 1
        (storeAsset (fun s => s) "app" "owner" "k" "a" "config" none 0
          Database.empty)).logs =
      Database.empty.logs ++
        [⟨0, 0, 1, "app", "config", "owner", "k", none, "a",
          dataHashOf (fun s => s) "a"⟩] ∧
    (storeAsset (fun s => s) "app" "owner" "k" "b" "config" none 1
        (storeAsset (fun s => s) "app" "owner" "k" "a" "config" none 0
          Database.empty)).assets =
      Database.empty.assets ++
        [⟨0, 1, "app", "config", "owner", "k", none, "b",
          dataHashOf (fun s => s) "b"⟩] ∧
    (storeAsset (fun s => s) "app" "owner" "k" "b" "config" none 1
        (storeAsset (fun s => s) "app" "owner" "k" "a" "config" none 0
          Database.empty)).assets.filter (assetMatches "owner" "k") =
      [⟨0, 1, "app", "config", "owner", "k", none, "b",
        dataHashOf (fun s => s) "b"⟩] :=
  storeAsset_two_stores_history (fun s => s) "app" "owner" "k" "a" "b"
    "config" "config" none none 0 1 Database.empty
    (by decide) (by decide) (by decide)

end ConfigMgmt
